import Mathlib

/-!
Verification development for the dynamic module manager
(`module_reloader.py`, `module_thread_template.py`).

The Python code is embedded shallowly:

* Python dicts (`_loaded_modules`, `_module_dependencies`, `_module_threads`,
  `_thread_configs`, `module_path`, `sys.modules`) become association lists
  over `String` keys with dict update semantics (`ainsert` replaces in place,
  `aerase` deletes).
* External runtime facilities (module loading via `importlib`, `getattr`,
  calling an operation, file hashing) become an explicit `Env` of pure
  functions; a `none`/`""` result models the corresponding Python exception
  or failure.
* `reload_module` is recursive with no termination guard in the source, so it
  is embedded with an explicit fuel parameter; `Res.noFuel` means the fuel ran
  out, and genuine termination of the source recursion corresponds to the
  existence of a fuel bound below which the result is never `Res.noFuel`.
* Exceptions that propagate out of a Python call are modelled by the
  `Res.raised` constructor carrying the mutated-so-far state.
-/

/-- An atomic Python value used as a positional or keyword argument. -/

inductive PyVal where
  | int (n : Int)
  | str (s : String)
  deriving DecidableEq, Repr

/-- A resolved attribute of a module namespace (result of `getattr`):
whether it is invocable, plus an identity tag. -/

structure Attr where
  callable : Bool
  tag : Nat
  deriving DecidableEq, Repr

/-- The handle of a loaded module: the executable namespace produced by
`exec_module`.  `modName` is `module.__name__`; `typeAttrs` lists, for every
attribute of the namespace that is a defined type, the `__module__` name of
that type (the input that `_get_module_dependencies` scans); `hid`
distinguishes distinct load events (a reload produces a fresh handle). -/

structure Handle where
  modName : String
  typeAttrs : List String
  hid : Nat
  deriving DecidableEq, Repr

/-- `_get_module_dependencies` (module_reloader.py:333-351): for every
type-valued attribute of the module record the name of the defining module when it
differs from the own name of the module, then `list(set(...))` (deduplicate). -/

def get_module_dependencies (m : Handle) : List String :=
  (m.typeAttrs.filter (fun d => d ≠ m.modName)).dedup

/-- Snapshot stored in `_thread_configs` by `start_module_thread`
(module_reloader.py:396-401). -/

structure ThreadConfig where
  target_function : String
  args : List PyVal
  kwargs : List (String × PyVal)
  deriving DecidableEq, Repr

/-- A `ThreadTemplate` object (module_thread_template.py:6-27) as far as the
supervisor bookkeeping observes it: the bound operation, the `func_type`
mode flag, the stored keyword parameters (`main_function_parameter`; the
constructor keeps only `**kwargs`), and the `_is_running` flag. -/

structure ThreadTemplate where
  main_function : Attr
  func_type : PyVal
  main_function_parameter : List (String × PyVal)
  is_running : Bool
  deriving DecidableEq, Repr

/-- Association-list lookup with Python-dict semantics (first hit wins;
reachable dicts have unique keys). -/

def alookup {α : Type} (k : String) : List (String × α) → Option α
  | [] => none
  | (k', v) :: rest => if k = k' then some v else alookup k rest

/-- Association-list update with Python-dict semantics: replace in place if
the key exists, append otherwise. -/

def ainsert {α : Type} (k : String) (v : α) : List (String × α) → List (String × α)
  | [] => [(k, v)]
  | (k', v') :: rest => if k = k' then (k, v) :: rest else (k', v') :: ainsert k v rest

/-- Association-list deletion (`del d[k]`). -/

def aerase {α : Type} (k : String) : List (String × α) → List (String × α)
  | [] => []
  | (k', v') :: rest => if k = k' then rest else (k', v') :: aerase k rest

/-- The key list of an association list. -/

def keysOf {α : Type} (l : List (String × α)) : List String :=
  l.map Prod.fst

/-- The mutable state of one `ModuleReloader` instance plus the slice of
`sys.modules` it manipulates. -/

structure RState where
  loaded_modules : List (String × Handle)
  module_dependencies : List (String × List String)
  module_threads : List (String × ThreadTemplate)
  thread_configs : List (String × ThreadConfig)
  module_path : List (String × String)
  sys_modules : List (String × Handle)
  deriving DecidableEq, Repr

/-- The external Python runtime, as pure functions.

* `mkMod name path` models `spec_from_file_location` + `module_from_spec`
  (`none` = the exception raised when no spec can be built);
* `execOk name path` models whether `spec.loader.exec_module` succeeds;
* `attr h op` models `getattr(h, op)` (`none` = `AttributeError`);
* `importModule name` models `importlib.import_module`
  (`none` = `ImportError`);
* `callResult f` models invoking the resolved operation
  (`none` = an exception raised during the call);
* `srcHash path` models `_calculate_file_hash` (module_reloader.py:35-50),
  which returns `""` when hashing raises. -/

structure Env where
  mkMod : String → String → Option Handle
  execOk : String → String → Bool
  attr : Handle → String → Option Attr
  importModule : String → Option Handle
  callResult : Attr → Option PyVal
  srcHash : String → String

/-- The Python exceptions that can propagate out of `reload_module`:
`KeyError` from `self.module_path[module_name]`, the exception raised when
no spec can be built, the exception raised by `exec_module`, and the
`TypeError` raised by the argument binding of the restart call
(module_reloader.py:306-311) when the stored positional arguments collide
with the keyword arguments of `start_module_thread`. -/

inductive PyErr where
  | keyError
  | specError
  | execError
  | typeError
  deriving DecidableEq, Repr

/-- Result of `reload_module`: normal completion carrying the final state and
the ordered list of names that were reloaded (each successful
`exec_module`-and-replace event appends its name); the early
not-registered return; a propagating Python exception; or fuel exhaustion
(the source has no termination guard). -/

inductive Res where
  | done (s : RState) (trace : List String)
  | notRegistered (s : RState)
  | raised (s : RState) (trace : List String) (e : PyErr)
  | noFuel
  deriving DecidableEq, Repr

/-- Outcome reported by `start_module_thread` (its observable print/return
behaviour; the function itself always returns `None`). -/

inductive StartOutcome where
  | notRegistered
  | opNotFound
  | startError
  | started
  deriving DecidableEq, Repr

/-- Outcome of `load_module_function`: the distinct reported failure kinds
and the successful return value. -/

inductive InvokeOutcome where
  | importError
  | attrError
  | notCallable
  | execError
  | ok (v : PyVal)
  deriving DecidableEq, Repr

/-- `kill_thread` (module_reloader.py:409-423): if a thread exists for the
name, stop it and delete it from `_module_threads`; `_thread_configs` is not
touched.  Otherwise only a message is printed. -/

def kill_thread (s : RState) (module_name : String) : RState :=
  match alookup module_name s.module_threads with
  | some _ => { s with module_threads := aerase module_name s.module_threads }
  | none => s

/-- `ThreadTemplate.__init__` via the call
`ThreadTemplate(target=target_func, *args, **kwargs)`
(module_reloader.py:392, module_thread_template.py:12-26).
Python binds the positional `args` to the declared parameters after `self`,
the first of which (`target`) is already given as a keyword, so any nonempty
`args` raises `TypeError` (as does a `target` key inside `kwargs`); these
exceptions are modelled as `none`.  Otherwise `func_type` is taken from
`kwargs` (default `1`) and only the remaining keyword arguments are stored
in `main_function_parameter`; the object starts with `_is_running = False`. -/

def thread_template_init (target : Attr) (args : List PyVal)
    (kwargs : List (String × PyVal)) : Option ThreadTemplate :=
  if args = [] ∧ alookup "target" kwargs = none then
    some { main_function := target
           func_type := (alookup "func_type" kwargs).getD (.int 1)
           main_function_parameter := kwargs.filter (fun kv => kv.1 ≠ "func_type")
           is_running := false }
  else
    none

/-- `start_module_thread` (module_reloader.py:374-407): resolve the module
from `_loaded_modules`, `getattr` the target function (absence raises
`AttributeError`, caught and reported), construct and start a
`ThreadTemplate` (any exception is caught and reported), then record the
thread and its configuration.  `ThreadTemplate.start` sets
`_is_running = True` unconditionally after the bounded readiness wait
(module_thread_template.py:39-40).  Note the source never checks that the
attribute is callable here. -/

def start_module_thread (env : Env) (s : RState) (module_name target_function : String)
    (args : List PyVal) (kwargs : List (String × PyVal)) : RState × StartOutcome :=
  match alookup module_name s.loaded_modules with
  | none => (s, .notRegistered)
  | some module =>
    match env.attr module target_function with
    | none => (s, .opNotFound)
    | some target_func =>
      match thread_template_init target_func args kwargs with
      | none => (s, .startError)
      | some thread =>
        let thread := { thread with is_running := true }
        ({ s with
            module_threads := ainsert module_name thread s.module_threads
            thread_configs :=
              ainsert module_name ⟨target_function, args, kwargs⟩ s.thread_configs },
          .started)

/-- One iteration of the cascade loop of `reload_module`
(module_reloader.py:296-299), parametrised by the recursive call `g`:
for a dependency name that is registered, recursively reload it; a
not-registered early return from the recursive call is an ordinary return
(the loop continues), while a propagating exception or fuel exhaustion
aborts the whole loop. -/

def cascade_step (g : RState → String → Res) (acc : Res) (dep : String) : Res :=
  match acc with
  | .done s tr =>
    if (alookup dep s.loaded_modules).isSome then
      match g s dep with
      | .done s' tr' => .done s' (tr ++ tr')
      | .notRegistered s' => .done s' tr
      | .raised s' tr' e => .raised s' tr' e
      | .noFuel => .noFuel
    else .done s tr
  | r => r

/-- The tail of `reload_module` after the cascade loop
(module_reloader.py:301-311): record the reloaded name in the trace, let a
propagating exception or fuel exhaustion pass through, and, when a thread
configuration was captured at entry, perform the restart call
`self.start_module_thread(module_name=.., target_function=..,
*stored_args, **stored_kwargs)` — whose Python
argument binding raises `TypeError` when the stored positional arguments are
nonempty (the first would rebind `module_name`) or the stored keyword
arguments contain the keys `module_name`/`target_function`. -/

def reload_finish (env : Env) (module_name : String)
    (thread_config : Option ThreadConfig) (r : Res) : Res :=
  match r with
  | .noFuel => .noFuel
  | .notRegistered t => .notRegistered t
  | .raised t tr e => .raised t (module_name :: tr) e
  | .done t tr =>
    match thread_config with
    | none => .done t (module_name :: tr)
    | some c =>
      if c.args = [] ∧ alookup "module_name" c.kwargs = none
          ∧ alookup "target_function" c.kwargs = none then
        .done (start_module_thread env t module_name
                c.target_function c.args c.kwargs).1 (module_name :: tr)
      else
        .raised t [module_name] .typeError

/-- The registry replacement performed by a successful fresh load
(module_reloader.py:291-294): store the fresh handle and the freshly
recomputed dependency list for the name. -/

def replace_unit (s : RState) (module_name : String) (foo : Handle) : RState :=
  { s with
    loaded_modules := ainsert module_name foo s.loaded_modules
    module_dependencies :=
      ainsert module_name (get_module_dependencies foo) s.module_dependencies }

/-- The body of `reload_module` after the not-registered check, the capture
of the thread configuration and the kill of an existing thread
(module_reloader.py:284-311), parametrised by the recursive call `g` used by
the cascade.  In source order: `spec_from_file_location(name,
self.module_path[name])` (a missing path key raises `KeyError`, and a
failure to build a spec or module raises); `sys.modules[name] = foo`
happens before `exec_module(foo)`, whose failure raises; on success the
registry handle and the freshly recomputed dependency list are replaced,
the cascade runs over that fresh dependency list restricted to registered
names, and finally, if a configuration was captured, the restart call
`self.start_module_thread(module_name=.., target_function=.., *args,
**kwargs)` runs — its argument binding raises `TypeError` whenever the
stored positional arguments are nonempty (they would rebind `module_name`)
or the stored keyword arguments contain `module_name`/`target_function`. -/

def reload_core (env : Env) (g : RState → String → Res) (s : RState)
    (thread_config : Option ThreadConfig) (module_name : String) : Res :=
  match alookup module_name s.module_path with
  | none => .raised s [] .keyError
  | some path =>
    match env.mkMod module_name path with
    | none => .raised s [] .specError
    | some foo =>
      let s := { s with sys_modules := ainsert module_name foo s.sys_modules }
      if env.execOk module_name path then
        reload_finish env module_name thread_config
          ((get_module_dependencies foo).foldl (cascade_step g)
            (.done (replace_unit s module_name foo) []))
      else
        .raised s [] .execError

/-- `reload_module` (module_reloader.py:264-314), with explicit fuel for the
unguarded recursion.  The not-registered early return, the capture of
`_thread_configs.get(name)` and the kill of an existing thread happen first
(module_reloader.py:271-282); the rest of the body is `reload_core`, with
the recursive call at the next lower fuel.  The commented-out `try/except`
in the source means every exception raised by the body propagates to the
caller. -/

def reload_module (env : Env) : Nat → RState → String → Res
  | 0, _, _ => .noFuel
  | fuel+1, s, module_name =>
    match alookup module_name s.loaded_modules with
    | none => .notRegistered s
    | some _ =>
      let thread_config := alookup module_name s.thread_configs
      let s := if (alookup module_name s.module_threads).isSome
               then kill_thread s module_name else s
      reload_core env (fun t d => reload_module env fuel t d) s thread_config module_name

/-- `get_module` (module_reloader.py:321-331). -/

def get_module (s : RState) (module_name : String) : Option Handle :=
  alookup module_name s.loaded_modules

/-- The dependency list that a fresh load of `n` would produce in environment
`env` given the path table `mp`: empty when the load cannot complete (in
which case `reload_module` raises before cascading). -/

def envDeps (env : Env) (mp : List (String × String)) (n : String) : List String :=
  match alookup n mp with
  | none => []
  | some path =>
    match env.mkMod n path with
    | none => []
    | some foo => if env.execOk n path then get_module_dependencies foo else []

/-- Termination of the source recursion of `reload_module` on a given input:
some fuel suffices. -/

def ReloadTerminates (env : Env) (s : RState) (module_name : String) : Prop :=
  ∃ fuel, reload_module env fuel s module_name ≠ .noFuel

/-- The resolution-plus-invocation tail of `load_module_function`
(module_reloader.py:449-466): `getattr` (absence is the reported
`AttributeError` case), the explicit callable check, and the call itself
(an exception during the call is the reported generic failure). -/

def invoke_resolved (env : Env) (s : RState) (module : Handle)
    (function_name : String) : RState × InvokeOutcome :=
  match env.attr module function_name with
  | none => (s, .attrError)
  | some target_func =>
    if target_func.callable then
      match env.callResult target_func with
      | some v => (s, .ok v)
      | none => (s, .execError)
    else (s, .notCallable)

/-- `load_module_function` (module_reloader.py:425-466): resolve the module
from `_loaded_modules`, else `sys.modules`, else a fresh
`importlib.import_module`; a successful fresh import is inserted into
`_loaded_modules` (and nothing else — in particular `_module_dependencies`
is not touched); then resolve and invoke the function. -/

def load_module_function (env : Env) (s : RState) (module_name function_name : String) :
    RState × InvokeOutcome :=
  match alookup module_name s.loaded_modules with
  | some module => invoke_resolved env s module function_name
  | none =>
    match alookup module_name s.sys_modules with
    | some module => invoke_resolved env s module function_name
    | none =>
      match env.importModule module_name with
      | none => (s, .importError)
      | some module =>
        invoke_resolved env
          { s with loaded_modules := ainsert module_name module s.loaded_modules }
          module function_name

/-- Python `str.startswith`, over the character list. -/

def pyStartswith (s pre : String) : Bool :=
  pre.data.isPrefixOf s.data

/-- Python `str.endswith`, over the character list. -/

def pyEndswith (s suf : String) : Bool :=
  suf.data.isSuffixOf s.data

/-- `_create_backup` (module_reloader.py:52-93).  The backup directory is
modelled as an association of file names to the hash that
`_calculate_file_hash` would report for that file (`""` for an unreadable
file; a freshly copied backup reports the hash of the source).  Steps: hash the
source (`""` aborts with an empty result and no write); list the files whose
name starts with `name + "_"` and ends with `".py"`; return the first whose
hash equals the source hash, if any, without writing; otherwise copy the
source to `name_<timestamp>.py` (`shutil.copy2` overwrites a same-named
file).  The timestamp string is an explicit argument standing for
`datetime.now().strftime(...)`. -/

def create_backup (env : Env) (files : List (String × String))
    (module_name source_path timestamp : String) :
    List (String × String) × String :=
  let source_hash := env.srcHash source_path
  if source_hash = "" then (files, "")
  else
    let backup_files := files.filter
      (fun f => pyStartswith f.1 (module_name ++ "_") && pyEndswith f.1 ".py")
    match backup_files.find? (fun f => f.2 = source_hash) with
    | some f => (files, "module_backups/" ++ f.1)
    | none =>
      let backup_filename := module_name ++ "_" ++ timestamp ++ ".py"
      (files.filter (fun f => f.1 ≠ backup_filename) ++ [(backup_filename, source_hash)],
        "module_backups/" ++ backup_filename)

/-- A backup record for module `name` with content hash `h`: the file-name
shape used by the listing filter of `_create_backup` plus the matching hash. -/

def backupMatches (module_name h : String) (f : String × String) : Bool :=
  pyStartswith f.1 (module_name ++ "_") && pyEndswith f.1 ".py" && f.2 = h

/-! ### State-evolution invariants of the reload cascade -/

/-- The state carried by a `reload_module` result (`noFuel` carries none). -/

def resState : Res → Option RState
  | .done s _ => some s
  | .notRegistered s => some s
  | .raised s _ _ => some s
  | .noFuel => none

/-- The registry facts preserved by every step of a reload: which names are
registered (keys of `_loaded_modules`; handles may change) and the whole
`module_path` table. -/

def RegInv (s t : RState) : Prop :=
  (∀ k, (alookup k t.loaded_modules).isSome = (alookup k s.loaded_modules).isSome) ∧
    t.module_path = s.module_path

/-! ### Concrete environments and states for witnesses and counterexamples -/

/-- A default environment: every fresh load succeeds with a handle that has
no type-valued attributes (hence an empty inferred dependency list), no
attributes resolve, imports fail, and hashing reports `"h0"`. -/

def baseEnv : Env where
  mkMod := fun n _ => some ⟨n, [], 100⟩
  execOk := fun _ _ => true
  attr := fun _ _ => none
  importModule := fun _ => none
  callResult := fun _ => none
  srcHash := fun _ => "h0"

def c5Env : Env := { baseEnv with srcHash := fun _ => "hABC" }

def c6Env : Env := { baseEnv with srcHash := fun _ => "" }

def c8S : RState :=
  ⟨[("calc", ⟨"calc", [], 0⟩)], [("calc", [])], [], [], [("calc", "calc.py")], []⟩

def c2Env : Env := { baseEnv with execOk := fun _ _ => false }

def c2S : RState :=
  ⟨[("calc", ⟨"calc", [], 0⟩)], [("calc", [])], [], [], [("calc", "calc.py")], []⟩

def c2T : RState :=
  ⟨[("calc", ⟨"calc", [], 0⟩)], [("calc", [])], [], [],
    [("calc", "calc.py")], [("calc", ⟨"calc", [], 100⟩)]⟩

def c7Env : Env :=
  { baseEnv with attr := fun _ op => if op = "tick" then some ⟨false, 7⟩ else none }

def c7S : RState :=
  ⟨[("calc", ⟨"calc", [], 0⟩)], [("calc", [])], [], [], [("calc", "calc.py")], []⟩

def c9Env : Env :=
  { baseEnv with
    importModule := fun n => if n = "util" then some ⟨"util", [], 42⟩ else none
    attr := fun _ op => if op = "run" then some ⟨true, 5⟩ else none
    callResult := fun _ => some (.int 99) }

def c9S : RState :=
  ⟨[("calc", ⟨"calc", [], 0⟩)], [("calc", [])], [], [], [("calc", "calc.py")], []⟩

def c10Env : Env := { baseEnv with attr := fun _ _ => some ⟨true, 3⟩ }

def c10W : ThreadTemplate := ⟨⟨true, 3⟩, .int 1, [("n", .int 1)], true⟩

def c10C : ThreadConfig := ⟨"tick", [], [("n", .int 1)]⟩

def c10S : RState :=
  ⟨[("calc", ⟨"calc", [], 0⟩)], [("calc", [])], [("calc", c10W)],
    [("calc", c10C)], [("calc", "calc.py")], []⟩

def c3Env : Env := { baseEnv with attr := fun _ _ => some ⟨true, 3⟩ }

def c3W : ThreadTemplate := ⟨⟨true, 3⟩, .int 1, [], true⟩

def c3Cbad : ThreadConfig := ⟨"tick", [.int 5], []⟩

def c3S : RState :=
  ⟨[("calc", ⟨"calc", [], 0⟩)], [("calc", [])], [("calc", c3W)],
    [("calc", c3Cbad)], [("calc", "calc.py")], []⟩

def c3T : RState :=
  ⟨[("calc", ⟨"calc", [], 100⟩)], [("calc", [])], [],
    [("calc", c3Cbad)], [("calc", "calc.py")], [("calc", ⟨"calc", [], 100⟩)]⟩

def c3Wok : ThreadTemplate := ⟨⟨true, 3⟩, .int 1, [("n", .int 1)], true⟩

def c3Cok : ThreadConfig := ⟨"tick", [], [("n", .int 1)]⟩

def c3SW : RState :=
  ⟨[("calc", ⟨"calc", [], 0⟩)], [("calc", [])], [("calc", c3Wok)],
    [("calc", c3Cok)], [("calc", "calc.py")], []⟩

def c1S : RState :=
  ⟨[("A", ⟨"A", [], 0⟩), ("B", ⟨"B", [], 1⟩)], [("A", []), ("B", ["A"])],
    [], [], [("A", "a.py"), ("B", "b.py")], []⟩

def c1T : RState :=
  ⟨[("A", ⟨"A", [], 100⟩), ("B", ⟨"B", [], 1⟩)], [("A", []), ("B", ["A"])],
    [], [], [("A", "a.py"), ("B", "b.py")], [("A", ⟨"A", [], 100⟩)]⟩

def c1WEnv : Env :=
  { baseEnv with mkMod := fun n _ => some ⟨n, if n = "A" then ["B"] else [], 100⟩ }

def c1WS : RState :=
  ⟨[("A", ⟨"A", [], 0⟩), ("B", ⟨"B", [], 1⟩)], [("A", []), ("B", [])],
    [], [], [("A", "a.py"), ("B", "b.py")], []⟩

def c4Env : Env :=
  { baseEnv with
    mkMod := fun n _ => some ⟨n, if n = "A" then ["B"] else ["A"], 9⟩ }

def c4S : RState :=
  ⟨[("A", ⟨"A", [], 0⟩), ("B", ⟨"B", [], 1⟩)], [("A", []), ("B", [])],
    [], [], [("A", "a.py"), ("B", "b.py")], []⟩

def c4FooA : Handle := ⟨"A", ["B"], 9⟩

def c4FooB : Handle := ⟨"B", ["A"], 9⟩

def c4T : RState :=
  ⟨[("A", c4FooA), ("B", c4FooB)], [("A", ["B"]), ("B", ["A"])],
    [], [], [("A", "a.py"), ("B", "b.py")], [("A", c4FooA), ("B", c4FooB)]⟩

def c4T1 : RState :=
  ⟨[("A", c4FooA), ("B", ⟨"B", [], 1⟩)], [("A", ["B"]), ("B", [])],
    [], [], [("A", "a.py"), ("B", "b.py")], [("A", c4FooA)]⟩

/-! ### Association-list lemmas -/

theorem alookup_ainsert_self {α : Type} (k : String) (v : α) (l : List (String × α)) :
    alookup k (ainsert k v l) = some v := by
  induction l with
  | nil => simp [alookup, ainsert]
  | cons kv rest ih =>
    by_cases h : k = kv.1
    · simp [alookup, ainsert, h]
    · simp [alookup, ainsert, h, ih]

theorem alookup_ainsert_ne {α : Type} {j k : String} (h : j ≠ k) (v : α)
    (l : List (String × α)) : alookup j (ainsert k v l) = alookup j l := by
  induction l with
  | nil => simp [alookup, ainsert, h]
  | cons kv rest ih =>
    by_cases hk : k = kv.1
    · subst hk
      simp [alookup, ainsert, h]
    · by_cases hj : j = kv.1
      · simp [alookup, ainsert, hj, hk]
      · simp [alookup, ainsert, hj, hk, ih]

theorem isSome_alookup_ainsert {α : Type} {k : String} {l : List (String × α)}
    (hk : (alookup k l).isSome) (v : α) (j : String) :
    (alookup j (ainsert k v l)).isSome = (alookup j l).isSome := by
  by_cases h : j = k
  · subst h
    simp [alookup_ainsert_self, hk]
  · rw [alookup_ainsert_ne h]

theorem alookup_aerase_ne {α : Type} {j k : String} (h : j ≠ k)
    (l : List (String × α)) : alookup j (aerase k l) = alookup j l := by
  induction l with
  | nil => simp [aerase]
  | cons kv rest ih =>
    by_cases hk : k = kv.1
    · subst hk
      simp [alookup, aerase, h]
    · by_cases hj : j = kv.1
      · simp [alookup, aerase, hj, hk]
      · simp [alookup, aerase, hj, hk, ih]

theorem alookup_eq_none_of_not_mem_keys {α : Type} {k : String}
    {l : List (String × α)} (h : k ∉ keysOf l) : alookup k l = none := by
  induction l with
  | nil => rfl
  | cons kv rest ih =>
    simp only [keysOf, List.map_cons, List.mem_cons, not_or] at h
    simp only [alookup, if_neg h.1]
    exact ih h.2

theorem mem_keysOf_iff_isSome {α : Type} (k : String) (l : List (String × α)) :
    k ∈ keysOf l ↔ (alookup k l).isSome := by
  induction l with
  | nil => simp [keysOf, alookup]
  | cons kv rest ih =>
    obtain ⟨k1, v1⟩ := kv
    by_cases h : k = k1
    · simp [keysOf, alookup, h]
    · simpa [keysOf, alookup, h] using ih

theorem alookup_aerase_self {α : Type} (k : String) {l : List (String × α)}
    (h : (keysOf l).Nodup) : alookup k (aerase k l) = none := by
  induction l with
  | nil => rfl
  | cons kv rest ih =>
    simp only [keysOf, List.map_cons, List.nodup_cons] at h
    by_cases hk : k = kv.1
    · subst hk
      simp only [aerase, if_pos rfl]
      exact alookup_eq_none_of_not_mem_keys h.1
    · simp only [aerase, if_neg hk, alookup, if_neg hk]
      exact ih h.2

theorem ainsert_lookup_eq {α : Type} {k : String} {v : α} {l : List (String × α)}
    (h : alookup k l = some v) : ainsert k v l = l := by
  induction l with
  | nil => simp [alookup] at h
  | cons kv rest ih =>
    obtain ⟨k1, v1⟩ := kv
    by_cases hk : k = k1
    · subst hk
      simp only [alookup, eq_self_iff_true, if_true, Option.some.injEq] at h
      simp [ainsert, h]
    · simp only [alookup, if_neg hk] at h
      simp [ainsert, hk, ih h]

theorem RegInv.refl (s : RState) : RegInv s s := ⟨fun _ => rfl, rfl⟩

theorem RegInv.trans {a b c : RState} (h1 : RegInv a b) (h2 : RegInv b c) :
    RegInv a c :=
  ⟨fun k => (h2.1 k).trans (h1.1 k), h2.2.trans h1.2⟩

theorem kill_thread_fields (s : RState) (n : String) :
    (kill_thread s n).loaded_modules = s.loaded_modules ∧
    (kill_thread s n).module_dependencies = s.module_dependencies ∧
    (kill_thread s n).thread_configs = s.thread_configs ∧
    (kill_thread s n).module_path = s.module_path ∧
    (kill_thread s n).sys_modules = s.sys_modules := by
  cases h : alookup n s.module_threads <;> simp [kill_thread, h]

theorem start_module_thread_fields (env : Env) (s : RState) (n f : String)
    (a : List PyVal) (kw : List (String × PyVal)) :
    ((start_module_thread env s n f a kw).1).loaded_modules = s.loaded_modules ∧
    ((start_module_thread env s n f a kw).1).module_dependencies = s.module_dependencies ∧
    ((start_module_thread env s n f a kw).1).module_path = s.module_path ∧
    ((start_module_thread env s n f a kw).1).sys_modules = s.sys_modules := by
  unfold start_module_thread
  cases h1 : alookup n s.loaded_modules with
  | none => simp
  | some m =>
    cases h2 : env.attr m f with
    | none => simp [h2]
    | some tf =>
      cases h3 : thread_template_init tf a kw with
      | none => simp [h2, h3]
      | some th => simp [h2, h3]

theorem RegInv_kill_thread (s : RState) (n : String) : RegInv s (kill_thread s n) :=
  ⟨fun k => by rw [(kill_thread_fields s n).1], (kill_thread_fields s n).2.2.2.1⟩

theorem RegInv_start_module_thread (env : Env) (s : RState) (n f : String)
    (a : List PyVal) (kw : List (String × PyVal)) :
    RegInv s ((start_module_thread env s n f a kw).1) :=
  ⟨fun k => by rw [(start_module_thread_fields env s n f a kw).1],
    (start_module_thread_fields env s n f a kw).2.2.1⟩

theorem cascadeFold_stuck (g : RState → String → Res) (l : List String) (r : Res)
    (h : ∀ s tr, r ≠ .done s tr) : l.foldl (cascade_step g) r = r := by
  induction l with
  | nil => rfl
  | cons d rest ih =>
    have hstep : cascade_step g r d = r := by
      cases r with
      | done s tr => exact absurd rfl (h s tr)
      | notRegistered s => rfl
      | raised s tr e => rfl
      | noFuel => rfl
    rw [List.foldl_cons, hstep, ih]

theorem cascade_step_ne_notRegistered (g : RState → String → Res) (acc : Res)
    (d : String) (hacc : ∀ t, acc ≠ .notRegistered t) :
    ∀ t, cascade_step g acc d ≠ .notRegistered t := by
  intro t
  cases acc with
  | done s tr =>
    simp only [cascade_step]
    by_cases hreg : (alookup d s.loaded_modules).isSome
    · rw [if_pos hreg]
      cases g s d <;> simp
    · rw [if_neg hreg]
      simp
  | notRegistered s =>
    show Res.notRegistered s ≠ Res.notRegistered t
    intro he
    exact hacc s (he ▸ rfl)
  | raised s tr e => simp [cascade_step]
  | noFuel => simp [cascade_step]

theorem cascadeFold_ne_notRegistered (g : RState → String → Res) (l : List String)
    (acc : Res) (hacc : ∀ t, acc ≠ .notRegistered t) :
    ∀ t, l.foldl (cascade_step g) acc ≠ .notRegistered t := by
  induction l generalizing acc with
  | nil => exact hacc
  | cons d rest ih =>
    rw [List.foldl_cons]
    exact ih _ (cascade_step_ne_notRegistered g acc d hacc)

theorem cascade_step_inv (g : RState → String → Res) (s₀ : RState)
    (hg : ∀ s d t, resState (g s d) = some t → RegInv s t) (acc : Res) (d : String)
    (hacc : ∀ t, resState acc = some t → RegInv s₀ t) :
    ∀ t, resState (cascade_step g acc d) = some t → RegInv s₀ t := by
  intro t ht
  cases acc with
  | done s tr =>
    have hs : RegInv s₀ s := hacc s rfl
    simp only [cascade_step] at ht
    by_cases hreg : (alookup d s.loaded_modules).isSome
    · rw [if_pos hreg] at ht
      cases hgd : g s d with
      | done s' tr' =>
        rw [hgd] at ht
        simp only [resState, Option.some.injEq] at ht
        exact ht ▸ hs.trans (hg s d s' (by rw [hgd]; rfl))
      | notRegistered s' =>
        rw [hgd] at ht
        simp only [resState, Option.some.injEq] at ht
        exact ht ▸ hs.trans (hg s d s' (by rw [hgd]; rfl))
      | raised s' tr' e =>
        rw [hgd] at ht
        simp only [resState, Option.some.injEq] at ht
        exact ht ▸ hs.trans (hg s d s' (by rw [hgd]; rfl))
      | noFuel =>
        rw [hgd] at ht
        simp [resState] at ht
    · rw [if_neg hreg] at ht
      simp only [resState, Option.some.injEq] at ht
      exact ht ▸ hs
  | notRegistered s => exact hacc t ht
  | raised s tr e => exact hacc t ht
  | noFuel => simp [cascade_step, resState] at ht

theorem cascadeFold_inv (g : RState → String → Res) (s₀ : RState)
    (hg : ∀ s d t, resState (g s d) = some t → RegInv s t)
    (l : List String) (acc : Res)
    (hacc : ∀ t, resState acc = some t → RegInv s₀ t) :
    ∀ t, resState (l.foldl (cascade_step g) acc) = some t → RegInv s₀ t := by
  induction l generalizing acc with
  | nil => exact hacc
  | cons d rest ih =>
    rw [List.foldl_cons]
    exact ih _ (cascade_step_inv g s₀ hg acc d hacc)

theorem cascade_step_trace_mono (g : RState → String → Res) (x : String) (acc : Res)
    (d : String) (hacc : ∀ s tr, acc = .done s tr → x ∈ tr) :
    ∀ s tr, cascade_step g acc d = .done s tr → x ∈ tr := by
  intro s tr h
  cases acc with
  | done s0 tr0 =>
    have hx : x ∈ tr0 := hacc s0 tr0 rfl
    simp only [cascade_step] at h
    by_cases hreg : (alookup d s0.loaded_modules).isSome
    · rw [if_pos hreg] at h
      cases hgd : g s0 d with
      | done s' tr' =>
        rw [hgd] at h
        simp only [Res.done.injEq] at h
        rw [← h.2]
        exact List.mem_append_left _ hx
      | notRegistered s' =>
        rw [hgd] at h
        simp only [Res.done.injEq] at h
        rw [← h.2]
        exact hx
      | raised s' tr' e =>
        rw [hgd] at h
        simp at h
      | noFuel =>
        rw [hgd] at h
        simp at h
    · rw [if_neg hreg] at h
      simp only [Res.done.injEq] at h
      rw [← h.2]
      exact hx
  | notRegistered s0 => simp [cascade_step] at h
  | raised s0 tr0 e => simp [cascade_step] at h
  | noFuel => simp [cascade_step] at h

theorem cascadeFold_trace_mono (g : RState → String → Res) (x : String)
    (l : List String) :
    ∀ acc, (∀ s tr, acc = .done s tr → x ∈ tr) →
      ∀ s tr, l.foldl (cascade_step g) acc = .done s tr → x ∈ tr := by
  induction l with
  | nil => intro acc hacc; exact hacc
  | cons d rest ih =>
    intro acc hacc s tr h
    rw [List.foldl_cons] at h
    exact ih _ (cascade_step_trace_mono g x acc d hacc) s tr h

theorem cascadeFold_mem (g : RState → String → Res) (s₀ : RState) (B : String)
    (hg_nr : ∀ s d t, g s d = .notRegistered t → alookup d s.loaded_modules = none)
    (hg_mem : ∀ s d t tr, g s d = .done t tr → d ∈ tr)
    (hg_inv : ∀ s d t, resState (g s d) = some t → RegInv s t)
    (hreg : (alookup B s₀.loaded_modules).isSome) (l : List String) :
    B ∈ l → ∀ acc, (∀ t, resState acc = some t → RegInv s₀ t) →
      ∀ t tr, l.foldl (cascade_step g) acc = .done t tr → B ∈ tr := by
  induction l with
  | nil => intro hB; cases hB
  | cons d rest ih =>
    intro hB acc hacc t tr hdone
    rw [List.foldl_cons] at hdone
    rcases List.mem_cons.mp hB with hBd | hBrest
    · subst hBd
      cases acc with
      | done s tr0 =>
        have hs : RegInv s₀ s := hacc s rfl
        have hregs : (alookup B s.loaded_modules).isSome := by rw [hs.1 B]; exact hreg
        simp only [cascade_step, if_pos hregs] at hdone
        cases hgB : g s B with
        | done s' trB =>
          rw [hgB] at hdone
          have hmem : B ∈ tr0 ++ trB :=
            List.mem_append_right _ (hg_mem s B s' trB hgB)
          refine cascadeFold_trace_mono g B rest _ ?_ t tr hdone
          intro s'' tr'' he
          simp only [Res.done.injEq] at he
          rw [← he.2]
          exact hmem
        | notRegistered t' =>
          rw [hg_nr s B t' hgB] at hregs
          simp at hregs
        | raised s' tr' e =>
          rw [hgB] at hdone
          rw [cascadeFold_stuck g rest _ (by intro s'' tr''; simp)] at hdone
          simp at hdone
        | noFuel =>
          rw [hgB] at hdone
          rw [cascadeFold_stuck g rest _ (by intro s'' tr''; simp)] at hdone
          simp at hdone
      | notRegistered s =>
        rw [show cascade_step g (Res.notRegistered s) B = Res.notRegistered s from rfl,
          cascadeFold_stuck g rest _ (by intro s'' tr''; simp)] at hdone
        simp at hdone
      | raised s tr0 e =>
        rw [show cascade_step g (Res.raised s tr0 e) B = Res.raised s tr0 e from rfl,
          cascadeFold_stuck g rest _ (by intro s'' tr''; simp)] at hdone
        simp at hdone
      | noFuel =>
        rw [show cascade_step g Res.noFuel B = Res.noFuel from rfl,
          cascadeFold_stuck g rest _ (by intro s'' tr''; simp)] at hdone
        simp at hdone
    · exact ih hBrest _ (cascade_step_inv g s₀ hg_inv acc d hacc) t tr hdone

theorem cascadeFold_nf (g : RState → String → Res) (s₀ : RState) (l : List String) :
    (∀ s d, d ∈ l → RegInv s₀ s → (alookup d s.loaded_modules).isSome →
      (g s d ≠ .noFuel ∧ ∀ t, resState (g s d) = some t → RegInv s t)) →
    ∀ acc, acc ≠ .noFuel → (∀ t, resState acc = some t → RegInv s₀ t) →
      l.foldl (cascade_step g) acc ≠ .noFuel := by
  induction l with
  | nil => intro _ acc h1 _; exact h1
  | cons d rest ih =>
    intro hg acc haccnf hacc
    rw [List.foldl_cons]
    have hstep : cascade_step g acc d ≠ .noFuel ∧
        (∀ t, resState (cascade_step g acc d) = some t → RegInv s₀ t) := by
      cases acc with
      | done s tr0 =>
        have hs : RegInv s₀ s := hacc s rfl
        simp only [cascade_step]
        by_cases hregs : (alookup d s.loaded_modules).isSome
        · rw [if_pos hregs]
          have hgd := hg s d (List.mem_cons_self _ _) hs hregs
          cases hgdc : g s d with
          | done s' tr' =>
            refine ⟨by simp, ?_⟩
            intro t ht
            simp only [resState, Option.some.injEq] at ht
            subst ht
            exact hs.trans (hgd.2 _ (by rw [hgdc]; rfl))
          | notRegistered s' =>
            refine ⟨by simp, ?_⟩
            intro t ht
            simp only [resState, Option.some.injEq] at ht
            subst ht
            exact hs.trans (hgd.2 _ (by rw [hgdc]; rfl))
          | raised s' tr' e =>
            refine ⟨by simp, ?_⟩
            intro t ht
            simp only [resState, Option.some.injEq] at ht
            subst ht
            exact hs.trans (hgd.2 _ (by rw [hgdc]; rfl))
          | noFuel => exact absurd hgdc hgd.1
        · rw [if_neg hregs]
          refine ⟨by simp, ?_⟩
          intro t ht
          simp only [resState, Option.some.injEq] at ht
          subst ht
          exact hs
      | notRegistered s => exact ⟨by simp [cascade_step], hacc⟩
      | raised s tr0 e => exact ⟨by simp [cascade_step], hacc⟩
      | noFuel => exact absurd rfl haccnf
    exact ih (fun s d' hd' => hg s d' (List.mem_cons_of_mem _ hd')) _ hstep.1 hstep.2

/-! ### Reload-level lemmas -/

theorem RegInv_replace_unit {s : RState} {module_name : String} (foo : Handle)
    (hreg : (alookup module_name s.loaded_modules).isSome) :
    RegInv s (replace_unit s module_name foo) :=
  ⟨fun k => isSome_alookup_ainsert hreg foo k, rfl⟩

theorem reload_finish_inv (env : Env) (n : String) (cfg : Option ThreadConfig)
    (s₀ : RState) (r : Res) (hr : ∀ u, resState r = some u → RegInv s₀ u) :
    ∀ t, resState (reload_finish env n cfg r) = some t → RegInv s₀ t := by
  intro t ht
  cases r with
  | noFuel => simp [reload_finish, resState] at ht
  | notRegistered u =>
    simp only [reload_finish, resState, Option.some.injEq] at ht
    subst ht; exact hr u rfl
  | raised u tr e =>
    simp only [reload_finish, resState, Option.some.injEq] at ht
    subst ht; exact hr u rfl
  | done u tr =>
    have hu : RegInv s₀ u := hr u rfl
    cases cfg with
    | none =>
      simp only [reload_finish, resState, Option.some.injEq] at ht
      subst ht; exact hu
    | some c =>
      simp only [reload_finish] at ht
      split at ht
      · simp only [resState, Option.some.injEq] at ht
        subst ht
        exact hu.trans (RegInv_start_module_thread env u n
          c.target_function c.args c.kwargs)
      · simp only [resState, Option.some.injEq] at ht
        subst ht; exact hu

theorem reload_finish_ne_noFuel (env : Env) (n : String) (cfg : Option ThreadConfig)
    (r : Res) (hr : r ≠ .noFuel) : reload_finish env n cfg r ≠ .noFuel := by
  cases r with
  | noFuel => exact absurd rfl hr
  | notRegistered u => simp [reload_finish]
  | raised u tr e => simp [reload_finish]
  | done u tr =>
    cases cfg with
    | none => simp [reload_finish]
    | some c =>
      simp only [reload_finish]
      split <;> simp

theorem reload_finish_ne_notRegistered (env : Env) (n : String)
    (cfg : Option ThreadConfig) (r : Res) (hr : ∀ u, r ≠ .notRegistered u) :
    ∀ t, reload_finish env n cfg r ≠ .notRegistered t := by
  intro t
  cases r with
  | noFuel => simp [reload_finish]
  | notRegistered u => exact fun h => hr u (by injection h with h1; rw [h1])
  | raised u tr e => simp [reload_finish]
  | done u tr =>
    cases cfg with
    | none => simp [reload_finish]
    | some c =>
      simp only [reload_finish]
      split <;> simp

theorem reload_finish_done (env : Env) (n : String) (cfg : Option ThreadConfig)
    (r : Res) (t : RState) (tr : List String)
    (h : reload_finish env n cfg r = .done t tr) :
    ∃ u tr4, r = .done u tr4 ∧ tr = n :: tr4 := by
  cases r with
  | noFuel => simp [reload_finish] at h
  | notRegistered u => simp [reload_finish] at h
  | raised u tr' e => simp [reload_finish] at h
  | done u tr4 =>
    cases cfg with
    | none =>
      simp only [reload_finish, Res.done.injEq] at h
      exact ⟨u, tr4, rfl, h.2.symm⟩
    | some c =>
      simp only [reload_finish] at h
      split at h
      · simp only [Res.done.injEq] at h
        exact ⟨u, tr4, rfl, h.2.symm⟩
      · simp at h

theorem reload_finish_done_restart (env : Env) (n : String) (c : ThreadConfig)
    (r : Res) (t : RState) (tr : List String)
    (h : reload_finish env n (some c) r = .done t tr) :
    ∃ u tr4, r = .done u tr4 ∧
      (c.args = [] ∧ alookup "module_name" c.kwargs = none
        ∧ alookup "target_function" c.kwargs = none) ∧
      t = (start_module_thread env u n c.target_function c.args c.kwargs).1 := by
  cases r with
  | noFuel => simp [reload_finish] at h
  | notRegistered u => simp [reload_finish] at h
  | raised u tr' e => simp [reload_finish] at h
  | done u tr4 =>
    simp only [reload_finish] at h
    split at h
    · rename_i hok
      simp only [Res.done.injEq] at h
      exact ⟨u, tr4, rfl, hok, h.1.symm⟩
    · simp at h

theorem resState_done_refl (x : RState) (tr : List String) :
    ∀ t, resState (Res.done x tr) = some t → RegInv x t := by
  intro t ht
  simp only [resState, Option.some.injEq] at ht
  subst ht
  exact RegInv.refl x

theorem reload_core_ne_notRegistered (env : Env) (g : RState → String → Res)
    (s : RState) (cfg : Option ThreadConfig) (n : String) :
    ∀ t, reload_core env g s cfg n ≠ .notRegistered t := by
  intro t
  unfold reload_core
  split
  · simp
  · split
    · simp
    · split
      · apply reload_finish_ne_notRegistered
        exact cascadeFold_ne_notRegistered g _ _ (by simp)
      · simp

theorem reload_core_done (env : Env) (g : RState → String → Res) (s : RState)
    (cfg : Option ThreadConfig) (n : String) (t : RState) (tr : List String)
    (h : reload_core env g s cfg n = .done t tr) :
    ∃ path foo u tr4,
      alookup n s.module_path = some path ∧
      env.mkMod n path = some foo ∧
      env.execOk n path = true ∧
      (get_module_dependencies foo).foldl (cascade_step g)
        (.done (replace_unit { s with sys_modules := ainsert n foo s.sys_modules } n foo) [])
        = .done u tr4 ∧
      tr = n :: tr4 ∧
      reload_finish env n cfg (.done u tr4) = .done t tr := by
  unfold reload_core at h
  split at h
  · simp at h
  · split at h
    · simp at h
    · rename_i o1 path hp o2 foo hm
      split at h
      · rename_i he
        obtain ⟨u, tr4, hcasc, htr⟩ := reload_finish_done env n cfg _ t tr h
        exact ⟨path, foo, u, tr4, hp, hm, he, hcasc, htr, by rw [← hcasc]; exact h⟩
      · simp at h

theorem reload_core_inv (env : Env) (g : RState → String → Res)
    (hg : ∀ s d t, resState (g s d) = some t → RegInv s t)
    (s : RState) (cfg : Option ThreadConfig) (n : String)
    (hreg : (alookup n s.loaded_modules).isSome) :
    ∀ t, resState (reload_core env g s cfg n) = some t → RegInv s t := by
  intro t ht
  unfold reload_core at ht
  split at ht
  · simp only [resState, Option.some.injEq] at ht
    subst ht; exact RegInv.refl s
  · split at ht
    · simp only [resState, Option.some.injEq] at ht
      subst ht; exact RegInv.refl s
    · rename_i o1 path hp o2 foo hm
      split at ht
      · rename_i he
        refine reload_finish_inv env n cfg s _ (fun u hu => ?_) t ht
        refine RegInv.trans (b := replace_unit
          { s with sys_modules := ainsert n foo s.sys_modules } n foo)
          (RegInv_replace_unit foo hreg) ?_
        refine cascadeFold_inv g _ hg _ _ (fun t' ht' => ?_) u hu
        simp only [resState, Option.some.injEq] at ht'
        subst ht'; exact RegInv.refl _
      · simp only [resState, Option.some.injEq] at ht
        subst ht
        exact ⟨fun k => rfl, rfl⟩

theorem reload_inv (env : Env) : ∀ fuel s module_name t,
    resState (reload_module env fuel s module_name) = some t → RegInv s t := by
  intro fuel
  induction fuel with
  | zero => intro s n t ht; simp [reload_module, resState] at ht
  | succ fuel ih =>
    intro s n t ht
    simp only [reload_module] at ht
    split at ht
    · simp only [resState, Option.some.injEq] at ht
      subst ht; exact RegInv.refl s
    · rename_i h0 hr
      have hprep : RegInv s (if (alookup n s.module_threads).isSome
          then kill_thread s n else s) := by
        split
        · exact RegInv_kill_thread s n
        · exact RegInv.refl s
      have hreg1 : (alookup n ((if (alookup n s.module_threads).isSome
          then kill_thread s n else s)).loaded_modules).isSome := by
        rw [hprep.1 n, hr]; rfl
      exact hprep.trans
        (reload_core_inv env _ (fun s' d t' ht' => ih s' d t' ht') _ _ n hreg1 t ht)

theorem reload_module_notRegistered (env : Env) (fuel : Nat) (s : RState)
    (n : String) (t : RState)
    (h : reload_module env fuel s n = .notRegistered t) :
    alookup n s.loaded_modules = none ∧ t = s := by
  cases fuel with
  | zero => simp [reload_module] at h
  | succ fuel =>
    simp only [reload_module] at h
    cases hr : alookup n s.loaded_modules with
    | none =>
      rw [hr] at h
      injection h with h1
      exact ⟨rfl, h1.symm⟩
    | some h0 =>
      rw [hr] at h
      exact absurd h (reload_core_ne_notRegistered env _ _ _ n t)

theorem reload_module_done_head (env : Env) (fuel : Nat) (s : RState)
    (n : String) (t : RState) (tr : List String)
    (h : reload_module env fuel s n = .done t tr) : ∃ tr', tr = n :: tr' := by
  cases fuel with
  | zero => simp [reload_module] at h
  | succ fuel =>
    simp only [reload_module] at h
    cases hr : alookup n s.loaded_modules with
    | none => rw [hr] at h; injection h
    | some h0 =>
      rw [hr] at h
      obtain ⟨path, foo, u, tr4, _, _, _, _, htr, _⟩ :=
        reload_core_done env _ _ _ n t tr h
      exact ⟨tr4, htr⟩

theorem reload_core_nf (env : Env) (g : RState → String → Res) (s₀ s : RState)
    (cfg : Option ThreadConfig) (n : String)
    (hreg : (alookup n s.loaded_modules).isSome)
    (hs : RegInv s₀ s)
    (hg : ∀ s' d, d ∈ envDeps env s₀.module_path n → RegInv s₀ s' →
      (alookup d s'.loaded_modules).isSome →
      (g s' d ≠ .noFuel ∧ ∀ t, resState (g s' d) = some t → RegInv s' t)) :
    reload_core env g s cfg n ≠ .noFuel := by
  unfold reload_core
  split
  · simp
  · split
    · simp
    · rename_i o1 path hp o2 foo hm
      split
      · rename_i he
        have hdeps : get_module_dependencies foo = envDeps env s₀.module_path n := by
          have hp0 : alookup n s₀.module_path = some path := by rw [← hs.2]; exact hp
          simp [envDeps, hp0, hm, he]
        apply reload_finish_ne_noFuel
        refine cascadeFold_nf g s₀ _ (fun s' d hd hinv hregd => ?_) _ (by simp)
          (fun t' ht' => ?_)
        · exact hg s' d (hdeps ▸ hd) hinv hregd
        · simp only [resState, Option.some.injEq] at ht'
          subst ht'
          exact hs.trans (RegInv.trans (RegInv.refl _) (RegInv_replace_unit foo hreg))
      · simp

theorem reload_nf (env : Env) (s₀ : RState) (rank : String → Nat)
    (hrank : ∀ n, n ∈ keysOf s₀.loaded_modules →
      ∀ d ∈ envDeps env s₀.module_path n, d ∈ keysOf s₀.loaded_modules →
        rank d < rank n) :
    ∀ fuel s n, RegInv s₀ s → rank n < fuel →
      reload_module env fuel s n ≠ .noFuel := by
  intro fuel
  induction fuel with
  | zero => intro s n _ h; omega
  | succ fuel ih =>
    intro s n hs hr
    simp only [reload_module]
    split
    · simp
    · rename_i h0 hreg0
      have hprep : RegInv s (if (alookup n s.module_threads).isSome
          then kill_thread s n else s) := by
        split
        · exact RegInv_kill_thread s n
        · exact RegInv.refl s
      have hreg1 : (alookup n ((if (alookup n s.module_threads).isSome
          then kill_thread s n else s)).loaded_modules).isSome := by
        rw [hprep.1 n, hreg0]; rfl
      have hn_mem : n ∈ keysOf s₀.loaded_modules := by
        rw [mem_keysOf_iff_isSome, ← hs.1 n, hreg0]; rfl
      refine reload_core_nf env _ s₀ _ _ n hreg1 (hs.trans hprep)
        (fun s' d hd hinv hregd => ⟨?_, fun t' ht' => reload_inv env fuel s' d t' ht'⟩)
      have hd_mem : d ∈ keysOf s₀.loaded_modules := by
        rw [mem_keysOf_iff_isSome, ← hinv.1 d]
        exact hregd
      have : rank d < rank n := hrank n hn_mem d hd hd_mem
      exact ih s' d hinv (by omega)

theorem reload_module_done_mem (env : Env) (fuel : Nat) (s : RState)
    (A B : String) (t : RState) (tr : List String)
    (hB : B ∈ envDeps env s.module_path A)
    (hregB : (alookup B s.loaded_modules).isSome)
    (h : reload_module env fuel s A = .done t tr) : B ∈ tr := by
  cases fuel with
  | zero => simp [reload_module] at h
  | succ fuel =>
    simp only [reload_module] at h
    cases hr : alookup A s.loaded_modules with
    | none => rw [hr] at h; injection h
    | some h0 =>
      rw [hr] at h
      obtain ⟨path, foo, u, tr4, hp, hm, he, hcasc, htr, _⟩ :=
        reload_core_done env _ _ _ A t tr h
      -- the prep state has the path table and registration facts of s
      have hprep : RegInv s (if (alookup A s.module_threads).isSome
          then kill_thread s A else s) := by
        split
        · exact RegInv_kill_thread s A
        · exact RegInv.refl s
      have hdeps : get_module_dependencies foo = envDeps env s.module_path A := by
        have hp0 : alookup A s.module_path = some path := by rw [← hprep.2]; exact hp
        simp [envDeps, hp0, hm, he]
      have hreg1 : (alookup A ((if (alookup A s.module_threads).isSome
          then kill_thread s A else s)).loaded_modules).isSome := by
        rw [hprep.1 A, hr]; rfl
      have hs3 : RegInv s (replace_unit
          { (if (alookup A s.module_threads).isSome then kill_thread s A else s) with
            sys_modules := ainsert A foo
              ((if (alookup A s.module_threads).isSome
                then kill_thread s A else s)).sys_modules } A foo) :=
        hprep.trans (RegInv.trans ⟨fun k => rfl, rfl⟩ (RegInv_replace_unit foo hreg1))
      have hregB3 : (alookup B (replace_unit
          { (if (alookup A s.module_threads).isSome then kill_thread s A else s) with
            sys_modules := ainsert A foo
              ((if (alookup A s.module_threads).isSome
                then kill_thread s A else s)).sys_modules } A foo).loaded_modules).isSome := by
        rw [hs3.1 B]
        exact hregB
      have hmem4 : B ∈ tr4 := by
        refine cascadeFold_mem _ _ B
          (fun s' d t' ht' => (reload_module_notRegistered env fuel s' d t' ht').1)
          (fun s' d t' tr' ht' => ?_)
          (fun s' d t' ht' => reload_inv env fuel s' d t' ht')
          hregB3 _ (hdeps ▸ hB) _ (fun t' ht' => ?_) u tr4 hcasc
        · obtain ⟨tr'', htr''⟩ := reload_module_done_head env fuel s' d t' tr' ht'
          rw [htr'']
          exact List.mem_cons_self _ _
        · simp only [resState, Option.some.injEq] at ht'
          subst ht'
          exact RegInv.refl _
      rw [htr]
      exact List.mem_cons_of_mem _ hmem4

theorem start_module_thread_success (env : Env) (s : RState) (n fn : String)
    (kw : List (String × PyVal)) (module : Handle) (f : Attr)
    (hmod : alookup n s.loaded_modules = some module)
    (hf : env.attr module fn = some f)
    (hkw : alookup "target" kw = none) :
    start_module_thread env s n fn [] kw =
      ({ s with
          module_threads := ainsert n
            ⟨f, (alookup "func_type" kw).getD (.int 1),
              kw.filter (fun kv => kv.1 ≠ "func_type"), true⟩ s.module_threads
          thread_configs := ainsert n ⟨fn, [], kw⟩ s.thread_configs }, .started) := by
  simp [start_module_thread, thread_template_init, hmod, hf, hkw]

theorem reload_done_restart (env : Env) (fuel : Nat) (s : RState) (n : String)
    (c : ThreadConfig) (t : RState) (tr : List String)
    (hc : alookup n s.thread_configs = some c)
    (hattr : ∀ h, (env.attr h c.target_function).isSome)
    (htkw : alookup "target" c.kwargs = none)
    (h : reload_module env fuel s n = .done t tr) :
    c.args = [] ∧
    ∃ w, alookup n t.module_threads = some w ∧ w.is_running = true ∧
      w.func_type = (alookup "func_type" c.kwargs).getD (.int 1) ∧
      w.main_function_parameter = c.kwargs.filter (fun kv => kv.1 ≠ "func_type") ∧
      alookup n t.thread_configs = some c := by
  cases fuel with
  | zero => simp [reload_module] at h
  | succ fuel =>
    simp only [reload_module] at h
    cases hr : alookup n s.loaded_modules with
    | none => rw [hr] at h; injection h
    | some h0 =>
      rw [hr] at h
      obtain ⟨path, foo, u, tr4, hp, hm, he, hcasc, htr, hfin⟩ :=
        reload_core_done env _ _ _ n t tr h
      rw [hc] at hfin
      obtain ⟨u', tr4', hueq, hok, hteq⟩ :=
        reload_finish_done_restart env n c _ t tr hfin
      injection hueq with hu htr4
      subst hu htr4
      have hprep : RegInv s (if (alookup n s.module_threads).isSome
          then kill_thread s n else s) := by
        split
        · exact RegInv_kill_thread s n
        · exact RegInv.refl s
      have hreg1 : (alookup n ((if (alookup n s.module_threads).isSome
          then kill_thread s n else s)).loaded_modules).isSome := by
        rw [hprep.1 n, hr]; rfl
      have hu_inv : RegInv (replace_unit
          { (if (alookup n s.module_threads).isSome then kill_thread s n else s) with
            sys_modules := ainsert n foo
              ((if (alookup n s.module_threads).isSome
                then kill_thread s n else s)).sys_modules } n foo) u :=
        cascadeFold_inv _ _ (fun s' d t' ht' => reload_inv env fuel s' d t' ht') _ _
          (resState_done_refl _ _) u (by rw [hcasc]; rfl)
      have hregu : (alookup n u.loaded_modules).isSome := by
        rw [hu_inv.1 n]
        show (alookup n (ainsert n foo _)).isSome = true
        rw [alookup_ainsert_self]; rfl
      obtain ⟨module, hmod⟩ := Option.isSome_iff_exists.mp hregu
      obtain ⟨f, hf⟩ := Option.isSome_iff_exists.mp (hattr module)
      rw [hok.1] at hteq
      rw [start_module_thread_success env u n c.target_function c.kwargs module f
        hmod hf htkw] at hteq
      subst hteq
      refine ⟨hok.1, _, alookup_ainsert_self _ _ _, rfl, rfl, rfl, ?_⟩
      show alookup n (ainsert n ⟨c.target_function, [], c.kwargs⟩ u.thread_configs)
        = some c
      rw [alookup_ainsert_self]
      obtain ⟨fn, cargs, ckw⟩ := c
      have : cargs = [] := hok.1
      rw [this]

/-! ### Backup-store lemmas -/

theorem isPrefixOf_self_append (l t : List Char) : l.isPrefixOf (l ++ t) = true := by
  induction l with
  | nil => simp [List.isPrefixOf]
  | cons c cs ih => simp [List.isPrefixOf, ih]

theorem isSuffixOf_self_append (l t : List Char) : t.isSuffixOf (l ++ t) = true := by
  unfold List.isSuffixOf
  rw [List.reverse_append]
  exact isPrefixOf_self_append _ _

theorem string_data_append (a b : String) : (a ++ b).data = a.data ++ b.data := rfl

theorem pyStartswith_new_backup (n ts : String) :
    pyStartswith (n ++ "_" ++ ts ++ ".py") (n ++ "_") = true := by
  show (n ++ "_").data.isPrefixOf (n ++ "_" ++ ts ++ ".py").data = true
  have hd : (n ++ "_" ++ ts ++ ".py").data
      = (n ++ "_").data ++ (ts.data ++ ".py".data) := by
    rw [string_data_append, string_data_append, List.append_assoc]
  rw [hd]
  exact isPrefixOf_self_append _ _

theorem pyEndswith_new_backup (n ts : String) :
    pyEndswith (n ++ "_" ++ ts ++ ".py") ".py" = true := by
  show ".py".data.isSuffixOf (n ++ "_" ++ ts ++ ".py").data = true
  rw [string_data_append]
  exact isSuffixOf_self_append _ _

theorem backupMatches_new_file (n ts h : String) :
    backupMatches n h (n ++ "_" ++ ts ++ ".py", h) = true := by
  simp [backupMatches, pyStartswith_new_backup, pyEndswith_new_backup]

theorem find?_append_of_none {α : Type} (p : α → Bool) (l₁ l₂ : List α)
    (h : l₁.find? p = none) : (l₁ ++ l₂).find? p = l₂.find? p := by
  induction l₁ with
  | nil => rfl
  | cons a rest ih =>
    rw [List.find?_cons] at h
    rw [List.cons_append, List.find?_cons]
    cases hp : p a with
    | false =>
      simp only [hp] at h ⊢
      exact ih h
    | true =>
      simp [hp] at h

theorem backupMatches_of (n h : String) (x : String × String)
    (h1 : (pyStartswith x.1 (n ++ "_") && pyEndswith x.1 ".py") = true)
    (h2 : x.2 = h) : backupMatches n h x = true := by
  simp only [Bool.and_eq_true] at h1
  simp only [backupMatches, Bool.and_eq_true, decide_eq_true_eq]
  exact ⟨⟨h1.1, h1.2⟩, h2⟩

theorem create_backup_new (env : Env) (files : List (String × String))
    (n p ts : String) (hne : ¬ env.srcHash p = "")
    (hfind : (files.filter
        (fun f => pyStartswith f.1 (n ++ "_") && pyEndswith f.1 ".py")).find?
      (fun f => f.2 = env.srcHash p) = none) :
    create_backup env files n p ts =
      (files.filter (fun f => f.1 ≠ (n ++ "_" ++ ts ++ ".py"))
        ++ [(n ++ "_" ++ ts ++ ".py", env.srcHash p)],
       "module_backups/" ++ (n ++ "_" ++ ts ++ ".py")) := by
  simp only [create_backup, if_neg hne, hfind]

theorem create_backup_dedup_hit (env : Env) (files : List (String × String))
    (n p ts : String) (f : String × String) (hne : ¬ env.srcHash p = "")
    (hfind : (files.filter
        (fun f => pyStartswith f.1 (n ++ "_") && pyEndswith f.1 ".py")).find?
      (fun f => f.2 = env.srcHash p) = some f) :
    create_backup env files n p ts = (files, "module_backups/" ++ f.1) := by
  simp only [create_backup, if_neg hne, hfind]

/-- C5: for every module name and source bytes, saving twice with
byte-identical content yields exactly one backup record for that
(name, hash) pair: starting from a store with no record for the pair, the
first `_create_backup` writes exactly one matching file, and the second
call finds that record by hash equality and returns its path without
modifying the store. -/
theorem c5_backup_dedup (env : Env) (files : List (String × String))
    (n p ts1 ts2 : String) (hne : ¬ env.srcHash p = "")
    (h0 : files.countP (backupMatches n (env.srcHash p)) = 0) :
    ((create_backup env files n p ts1).1).countP (backupMatches n (env.srcHash p)) = 1 ∧
    create_backup env (create_backup env files n p ts1).1 n p ts2 =
      ((create_backup env files n p ts1).1,
        "module_backups/" ++ (n ++ "_" ++ ts1 ++ ".py")) := by
  have hno := List.countP_eq_zero.mp h0
  have hfind1 : (files.filter
      (fun f => pyStartswith f.1 (n ++ "_") && pyEndswith f.1 ".py")).find?
      (fun f => f.2 = env.srcHash p) = none := by
    rw [List.find?_eq_none]
    intro x hx hpx
    have hm := List.mem_filter.mp hx
    exact hno x hm.1 (backupMatches_of n (env.srcHash p) x hm.2 (of_decide_eq_true hpx))
  have hr1 := create_backup_new env files n p ts1 hne hfind1
  have hcount : ((create_backup env files n p ts1).1).countP
      (backupMatches n (env.srcHash p)) = 1 := by
    rw [hr1]
    show (List.countP _ (_ ++ _)) = 1
    rw [List.countP_append]
    have hA : (files.filter (fun f => f.1 ≠ (n ++ "_" ++ ts1 ++ ".py"))).countP
        (backupMatches n (env.srcHash p)) = 0 := by
      rw [List.countP_eq_zero]
      intro a ha
      exact hno a (List.mem_filter.mp ha).1
    rw [hA]
    simp [List.countP_cons, backupMatches_new_file]
  refine ⟨hcount, ?_⟩
  rw [hr1]
  show create_backup env (_ ++ _) n p ts2 = _
  rw [create_backup_dedup_hit env _ n p ts2 (n ++ "_" ++ ts1 ++ ".py", env.srcHash p) hne ?_]
  · rw [List.filter_append, find?_append_of_none]
    · have hf : (([(n ++ "_" ++ ts1 ++ ".py", env.srcHash p)]).filter
          (fun f => pyStartswith f.1 (n ++ "_") && pyEndswith f.1 ".py"))
          = [(n ++ "_" ++ ts1 ++ ".py", env.srcHash p)] := by
        simp [List.filter, pyStartswith_new_backup, pyEndswith_new_backup]
      rw [hf]
      simp [List.find?]
    · rw [List.find?_eq_none]
      intro x hx hpx
      have hm := List.mem_filter.mp hx
      have hm0 := List.mem_filter.mp hm.1
      exact hno x hm0.1 (backupMatches_of n (env.srcHash p) x hm.2 (of_decide_eq_true hpx))

/-- Witness for `c5_backup_dedup`: concrete double save of identical
content into an empty store. -/
theorem c5_backup_dedup_witness :
    ¬ c5Env.srcHash "calc.py" = "" ∧
    (((create_backup c5Env [] "calc" "calc.py" "20240101_000000").1).countP
      (backupMatches "calc" (c5Env.srcHash "calc.py")) = 1 ∧
    create_backup c5Env (create_backup c5Env [] "calc" "calc.py" "20240101_000000").1
        "calc" "calc.py" "20240102_000000" =
      ((create_backup c5Env [] "calc" "calc.py" "20240101_000000").1,
        "module_backups/" ++ ("calc" ++ "_" ++ "20240101_000000" ++ ".py"))) :=
  ⟨by decide, c5_backup_dedup c5Env [] "calc" "calc.py" "20240101_000000"
    "20240102_000000" (by decide) rfl⟩

/-- C6 counterexample: when hashing the *source* fails (sentinel `""`),
`_create_backup` returns the empty sentinel immediately
(module_reloader.py:65-67, `if not source_hash: return ""`) and the store
is left unchanged — no new backup record is attempted, contradicting the
claim that a source-hash failure is treated as a no-match outcome that
still forces a new save. -/
theorem c6_counterexample :
    c6Env.srcHash "m.py" = "" ∧
    create_backup c6Env [("keep_1.py", "h1")] "m" "m.py" "20240101_000000" =
      ([("keep_1.py", "h1")], "") :=
  ⟨rfl, rfl⟩

/-- C6 amended: if computing the content hash of the *source* fails, the
backup save aborts, returning the empty sentinel and creating no record
(the no-match degradation in the source applies to hash failures of
*existing backup files*, whose `""` hash can never equal the nonempty
source hash — not to the source itself). -/
theorem c6_amended_source_hash_failure_aborts (env : Env)
    (files : List (String × String)) (n p ts : String)
    (h : env.srcHash p = "") :
    create_backup env files n p ts = (files, "") := by
  simp [create_backup, h]

/-- Witness for `c6_amended_source_hash_failure_aborts`. -/
theorem c6_amended_witness :
    c6Env.srcHash "m.py" = "" ∧
    create_backup c6Env [("m_20230101_000000.py", "h1")] "m" "m.py" "20240101_000000"
      = ([("m_20230101_000000.py", "h1")], "") :=
  ⟨rfl, c6_amended_source_hash_failure_aborts c6Env
    [("m_20230101_000000.py", "h1")] "m" "m.py" "20240101_000000" rfl⟩

/-- C8: `reload_module` on a never-registered name takes the early
not-registered return (module_reloader.py:271-273) and hands back the state
unchanged — the registered-name set, every handle and dependency set, the
worker table, the configuration table, the path table and `sys.modules`
are all exactly the input state. -/
theorem c8_reload_unregistered (env : Env) (fuel : Nat) (s : RState) (ghost : String)
    (h : alookup ghost s.loaded_modules = none) :
    reload_module env (fuel+1) s ghost = .notRegistered s := by
  simp only [reload_module, h]

/-- Witness for `c8_reload_unregistered`. -/
theorem c8_reload_unregistered_witness :
    alookup "ghost" c8S.loaded_modules = none ∧
    reload_module baseEnv 1 c8S "ghost" = .notRegistered c8S :=
  ⟨rfl, c8_reload_unregistered baseEnv 0 c8S "ghost" rfl⟩

/-- C2 amended: `reload_module` performs no backup fallback and does not
convert failures into a reported, non-throwing result — the `try/except`
around its body is commented out in the source (module_reloader.py:275,
313-314) and `_load_from_backup` is reachable only from `register_module`.
When the fresh source load fails (no import spec can be built, or
`exec_module` raises), the exception propagates to the caller; the
registry entry of the module — its handle and its recorded dependency set (the
registry stores no content hash) — is left exactly as before the call,
although any running worker for the name has already been killed and, in
the `exec_module` case, `sys.modules` has already been repointed at the
fresh, unexecuted module object. -/
theorem c2_amended_reload_failure_raises (env : Env) (fuel : Nat) (s : RState)
    (n path : String) (h0 : Handle)
    (hreg : alookup n s.loaded_modules = some h0)
    (hpath : alookup n s.module_path = some path)
    (hfail : env.mkMod n path = none ∨ env.execOk n path = false) :
    ∃ t e, reload_module env (fuel+1) s n = .raised t [] e ∧
      alookup n t.loaded_modules = some h0 ∧
      alookup n t.module_dependencies = alookup n s.module_dependencies := by
  simp only [reload_module, hreg]
  set s1 := if (alookup n s.module_threads).isSome then kill_thread s n else s with hs1
  have hfields : s1.loaded_modules = s.loaded_modules ∧
      s1.module_dependencies = s.module_dependencies ∧
      s1.module_path = s.module_path := by
    rw [hs1]
    split
    · exact ⟨(kill_thread_fields s n).1, (kill_thread_fields s n).2.1,
        (kill_thread_fields s n).2.2.2.1⟩
    · exact ⟨rfl, rfl, rfl⟩
  have hpath1 : alookup n s1.module_path = some path := by
    rw [hfields.2.2]; exact hpath
  rcases hfail with hmk | hexec
  · refine ⟨s1, .specError, ?_, ?_, ?_⟩
    · simp only [reload_core, hpath1, hmk]
    · rw [hfields.1]; exact hreg
    · rw [hfields.2.1]
  · cases hmk : env.mkMod n path with
    | none =>
      refine ⟨s1, .specError, ?_, ?_, ?_⟩
      · simp only [reload_core, hpath1, hmk]
      · rw [hfields.1]; exact hreg
      · rw [hfields.2.1]
    | some foo =>
      refine ⟨{ s1 with sys_modules := ainsert n foo s1.sys_modules }, .execError,
        ?_, ?_, ?_⟩
      · simp only [reload_core, hpath1, hmk, hexec, Bool.false_eq_true, if_false]
      · show alookup n s1.loaded_modules = some h0
        rw [hfields.1]; exact hreg
      · show alookup n s1.module_dependencies = alookup n s.module_dependencies
        rw [hfields.2.1]

/-- C2 counterexample: with a registered module whose fresh source load
fails (`exec_module` raises), `reload_module` produces `Res.raised` — the
Python exception propagates — rather than a reported, non-throwing result,
and no backup load is attempted anywhere in `reload_module` (the model of
the function contains no backup-store access; the fallback exists only in
`register_module`).  This contradicts the claimed fall-back-to-backup,
non-throwing abort. -/
theorem c2_counterexample :
    alookup "calc" c2S.loaded_modules = some ⟨"calc", [], 0⟩ ∧
    reload_module c2Env 1 c2S "calc" = .raised c2T [] .execError := by
  decide

/-- Witness for `c2_amended_reload_failure_raises`. -/
theorem c2_amended_witness :
    ∃ t e, reload_module c2Env 1 c2S "calc" = .raised t [] e ∧
      alookup "calc" t.loaded_modules = some ⟨"calc", [], 0⟩ ∧
      alookup "calc" t.module_dependencies = alookup "calc" c2S.module_dependencies :=
  c2_amended_reload_failure_raises c2Env 0 c2S "calc" "calc.py" ⟨"calc", [], 0⟩
    rfl rfl (Or.inr rfl)

/-- C7 counterexample: the named operation resolves on the handle but is
*not* invocable (`callable := false`), yet `start_module_thread` reports a
successful start, creates the worker and stores the thread configuration —
the source has no callable check on this path (the only `callable` test is
in `load_module_function`), and the `TypeError` of calling a non-callable
would only occur asynchronously inside the worker thread.  This
contradicts the claimed distinct OperationNotCallable failure with no
worker created and no config stored. -/
theorem c7_counterexample :
    c7Env.attr ⟨"calc", [], 0⟩ "tick" = some ⟨false, 7⟩ ∧
    (start_module_thread c7Env c7S "calc" "tick" [] []).2 = .started ∧
    (alookup "calc"
      ((start_module_thread c7Env c7S "calc" "tick" [] []).1).module_threads).isSome ∧
    alookup "calc"
      ((start_module_thread c7Env c7S "calc" "tick" [] []).1).thread_configs
      = some ⟨"tick", [], []⟩ := by
  decide

/-- C7 amended: for a registered module, `start_module_thread` fails with
the distinct OperationNotFound report when the operation is absent from the
handle (the caught `AttributeError`), and then neither a worker nor a
config is stored; but when the attribute is present — invocable or not —
the start succeeds: a worker is created and the configuration is stored.
There is no OperationNotCallable outcome in this function. -/
theorem c7_amended_start_outcomes (env : Env) (s : RState) (n fn : String)
    (module : Handle) (kw : List (String × PyVal))
    (hmod : alookup n s.loaded_modules = some module)
    (hkw : alookup "target" kw = none) :
    (env.attr module fn = none →
      start_module_thread env s n fn [] kw = (s, .opNotFound)) ∧
    (∀ f, env.attr module fn = some f →
      (start_module_thread env s n fn [] kw).2 = .started ∧
      (alookup n ((start_module_thread env s n fn [] kw).1).module_threads).isSome ∧
      alookup n ((start_module_thread env s n fn [] kw).1).thread_configs
        = some ⟨fn, [], kw⟩) := by
  constructor
  · intro hnone
    simp [start_module_thread, hmod, hnone]
  · intro f hf
    rw [start_module_thread_success env s n fn kw module f hmod hf hkw]
    refine ⟨rfl, ?_, ?_⟩
    · show (alookup n (ainsert n _ s.module_threads)).isSome
      rw [alookup_ainsert_self]; rfl
    · exact alookup_ainsert_self _ _ _

/-- Witness for `c7_amended_start_outcomes`, at a present-but-not-invocable
operation. -/
theorem c7_amended_witness :
    (start_module_thread c7Env c7S "calc" "tick" [] []).2 = .started ∧
    (alookup "calc"
      ((start_module_thread c7Env c7S "calc" "tick" [] []).1).module_threads).isSome ∧
    alookup "calc"
      ((start_module_thread c7Env c7S "calc" "tick" [] []).1).thread_configs
      = some ⟨"tick", [], []⟩ :=
  (c7_amended_start_outcomes c7Env c7S "calc" "tick" ⟨"calc", [], 0⟩ [] rfl rfl).2
    ⟨false, 7⟩ rfl

/-- C9: a direct invocation of a name absent from both the registry and
`sys.modules` that succeeds through the fresh-import fallback inserts the freshly
imported module into `_loaded_modules` (module_reloader.py:446-447) — a
subsequent `get_module` returns it — but writes no entry into
`_module_dependencies`, so afterwards the invariant that every registered
name has a dependency entry fails. -/
theorem c9_fresh_import_registers_without_deps (env : Env) (s : RState)
    (n fn : String) (m : Handle) (f : Attr) (v : PyVal)
    (hnotreg : alookup n s.loaded_modules = none)
    (hnotsys : alookup n s.sys_modules = none)
    (himp : env.importModule n = some m)
    (hf : env.attr m fn = some f)
    (hcall : f.callable = true)
    (hres : env.callResult f = some v)
    (hnodep : alookup n s.module_dependencies = none) :
    load_module_function env s n fn =
      ({ s with loaded_modules := ainsert n m s.loaded_modules }, .ok v) ∧
    get_module (load_module_function env s n fn).1 n = some m ∧
    (load_module_function env s n fn).1.module_dependencies = s.module_dependencies ∧
    ¬ (∀ k, (alookup k (load_module_function env s n fn).1.loaded_modules).isSome →
        (alookup k (load_module_function env s n fn).1.module_dependencies).isSome) := by
  have heq : load_module_function env s n fn =
      ({ s with loaded_modules := ainsert n m s.loaded_modules }, .ok v) := by
    simp [load_module_function, invoke_resolved, hnotreg, hnotsys, himp, hf, hcall, hres]
  refine ⟨heq, ?_, ?_, ?_⟩
  · rw [heq]
    show alookup n (ainsert n m s.loaded_modules) = some m
    exact alookup_ainsert_self _ _ _
  · rw [heq]
  · rw [heq]
    intro hinv
    have hx := hinv n (by rw [alookup_ainsert_self]; rfl)
    simp [hnodep] at hx

/-- Witness for `c9_fresh_import_registers_without_deps`. -/
theorem c9_witness :
    load_module_function c9Env c9S "util" "run" =
      ({ c9S with loaded_modules := ainsert "util" ⟨"util", [], 42⟩ c9S.loaded_modules },
        .ok (.int 99)) ∧
    get_module (load_module_function c9Env c9S "util" "run").1 "util"
      = some ⟨"util", [], 42⟩ ∧
    (load_module_function c9Env c9S "util" "run").1.module_dependencies
      = c9S.module_dependencies ∧
    ¬ (∀ k, (alookup k
        (load_module_function c9Env c9S "util" "run").1.loaded_modules).isSome →
        (alookup k
          (load_module_function c9Env c9S "util" "run").1.module_dependencies).isSome) :=
  c9_fresh_import_registers_without_deps c9Env c9S "util" "run" ⟨"util", [], 42⟩
    ⟨true, 5⟩ (.int 99) rfl rfl rfl rfl rfl rfl rfl

/-- C10: `kill_thread` removes the worker from `_module_threads` but leaves
`_thread_configs` untouched (module_reloader.py:416-423), so a later
`reload_module` still captures the retained configuration and — because the
restart step only checks the captured config, not whether a worker was
running — restarts a worker with exactly that configuration whenever the
reload completes. -/
theorem c10_stop_keeps_config_and_reload_restarts (env : Env) (s : RState)
    (n : String) (w : ThreadTemplate) (c : ThreadConfig) (fuel : Nat)
    (hw : alookup n s.module_threads = some w)
    (hnodup : (keysOf s.module_threads).Nodup)
    (hc : alookup n s.thread_configs = some c)
    (hattr : ∀ h : Handle, (env.attr h c.target_function).isSome)
    (htkw : alookup "target" c.kwargs = none) :
    alookup n (kill_thread s n).module_threads = none ∧
    (kill_thread s n).thread_configs = s.thread_configs ∧
    (∀ t tr, reload_module env fuel (kill_thread s n) n = .done t tr →
      ∃ w', alookup n t.module_threads = some w' ∧ w'.is_running = true ∧
        alookup n t.thread_configs = some c) := by
  refine ⟨?_, (kill_thread_fields s n).2.2.1, ?_⟩
  · unfold kill_thread
    rw [hw]
    exact alookup_aerase_self n hnodup
  · intro t tr h
    have hc' : alookup n (kill_thread s n).thread_configs = some c := by
      rw [(kill_thread_fields s n).2.2.1]; exact hc
    obtain ⟨hargs, w', hw', hrun, hft, hparams, hcfg⟩ :=
      reload_done_restart env fuel (kill_thread s n) n c t tr hc' hattr htkw h
    exact ⟨w', hw', hrun, hcfg⟩

/-- Witness for `c10_stop_keeps_config_and_reload_restarts`. -/
theorem c10_witness :
    alookup "calc" (kill_thread c10S "calc").module_threads = none ∧
    (kill_thread c10S "calc").thread_configs = c10S.thread_configs ∧
    (∃ t tr, reload_module c10Env 1 (kill_thread c10S "calc") "calc" = .done t tr ∧
      ∃ w', alookup "calc" t.module_threads = some w' ∧ w'.is_running = true ∧
        alookup "calc" t.thread_configs = some c10C) := by
  have H := c10_stop_keeps_config_and_reload_restarts c10Env c10S "calc" c10W c10C 1
    rfl (by decide) rfl (fun _ => rfl) rfl
  exact ⟨H.1, H.2.1, ⟨_, _, rfl, H.2.2 _ _ rfl⟩⟩

/-- C3 counterexample: a continuous worker is running for "calc" with a
captured configuration whose positional-argument list is nonempty
(`args = [5]`).  `reload_module` kills the worker, reloads the module, and
then the restart call raises `TypeError` — Python binds the stored
positional arguments to the `module_name` and `target_function` parameters
of `start_module_thread`, which are already given as keywords
(module_reloader.py:306-311).  The reload therefore terminates with a
propagating exception and *no* worker is running afterwards, contradicting
the claim that after `reload(U)` returns a worker runs again with config C
"including the positional arguments being passed to the restarted
operation". -/
theorem c3_counterexample :
    alookup "calc" c3S.module_threads = some c3W ∧
    c3W.is_running = true ∧ c3W.func_type = .int 1 ∧
    alookup "calc" c3S.thread_configs = some c3Cbad ∧
    reload_module c3Env 1 c3S "calc" = .raised c3T ["calc"] .typeError ∧
    alookup "calc" c3T.module_threads = none := by
  decide

/-- C3 amended: whenever `reload_module` on a module with a running
continuous worker completes normally, the captured configuration
necessarily had an empty positional-argument list (a nonempty one makes the
restart call raise `TypeError`), and a worker for the module is running
again whose recorded configuration equals the captured one; positional
arguments are never passed to the restarted operation — `ThreadTemplate`
stores and forwards only the keyword arguments. -/
theorem c3_amended_worker_restart (env : Env) (fuel : Nat) (s : RState) (n : String)
    (w : ThreadTemplate) (c : ThreadConfig) (t : RState) (tr : List String)
    (_hw : alookup n s.module_threads = some w)
    (_hrun : w.is_running = true)
    (_hcont : w.func_type = .int 1)
    (hc : alookup n s.thread_configs = some c)
    (hft : alookup "func_type" c.kwargs = none)
    (htkw : alookup "target" c.kwargs = none)
    (hattr : ∀ h : Handle, (env.attr h c.target_function).isSome)
    (hdone : reload_module env fuel s n = .done t tr) :
    c.args = [] ∧
    ∃ w', alookup n t.module_threads = some w' ∧ w'.is_running = true ∧
      w'.func_type = .int 1 ∧
      w'.main_function_parameter = c.kwargs.filter (fun kv => kv.1 ≠ "func_type") ∧
      alookup n t.thread_configs = some c := by
  obtain ⟨hargs, w', hw', hrun', hft', hparams, hcfg⟩ :=
    reload_done_restart env fuel s n c t tr hc hattr htkw hdone
  refine ⟨hargs, w', hw', hrun', ?_, hparams, hcfg⟩
  rw [hft', hft]
  rfl

/-- Witness for `c3_amended_worker_restart`. -/
theorem c3_amended_witness :
    ∃ t tr, reload_module c3Env 1 c3SW "calc" = .done t tr ∧
      (c3Cok.args = [] ∧
        ∃ w', alookup "calc" t.module_threads = some w' ∧ w'.is_running = true ∧
          w'.func_type = .int 1 ∧
          w'.main_function_parameter
            = c3Cok.kwargs.filter (fun kv => kv.1 ≠ "func_type") ∧
          alookup "calc" t.thread_configs = some c3Cok) := by
  refine ⟨_, _, rfl, c3_amended_worker_restart c3Env 1 c3SW "calc" c3Wok c3Cok _ _
    rfl rfl rfl rfl rfl rfl (fun _ => rfl) rfl⟩

/-- C1 counterexample: the recorded dependency set of B contains A, both are
registered, and the recorded graph is acyclic (A has no dependencies), yet
`reload_module A` reloads only A — its trace is `["A"]`, containing B zero
times, not exactly once.  The cascade loop (module_reloader.py:296-299)
iterates over `self._module_dependencies[module_name]` — the names the
reloaded module itself depends on (the forward view, freshly recomputed) —
never over the names recorded as depending on it. -/
theorem c1_counterexample :
    alookup "B" c1S.module_dependencies = some ["A"] ∧
    (alookup "A" c1S.loaded_modules).isSome ∧
    (alookup "B" c1S.loaded_modules).isSome ∧
    reload_module baseEnv 1 c1S "A" = .done c1T ["A"] ∧
    (["A"].count "B") = 0 := by
  decide

/-- C1 amended: the cascade recurses over the *freshly recomputed forward*
dependency list of the reloaded module restricted to registered names, not
the reverse view: if B is in the dependency list that a fresh load of A
produces and B is registered, then every run of `reload_module A` that
completes normally reloads B at least once.  ("Exactly once" fails in
general even in this direction, because B may be reachable along several
forward paths and each reload recurses independently.) -/
theorem c1_amended_cascade_forward (env : Env) (fuel : Nat) (s : RState)
    (A B : String) (t : RState) (tr : List String)
    (hB : B ∈ envDeps env s.module_path A)
    (hregB : (alookup B s.loaded_modules).isSome)
    (hdone : reload_module env fuel s A = .done t tr) :
    B ∈ tr :=
  reload_module_done_mem env fuel s A B t tr hB hregB hdone

/-- Witness for `c1_amended_cascade_forward`: the fresh dependency list of A is
`["B"]`, and reloading A reloads B. -/
theorem c1_amended_witness :
    ∃ t tr, reload_module c1WEnv 2 c1WS "A" = .done t tr ∧ "B" ∈ tr := by
  refine ⟨_, _, rfl,
    c1_amended_cascade_forward c1WEnv 2 c1WS "A" "B" _ _ (by decide) rfl rfl⟩

theorem cascade_step_noFuel_of (g : RState → String → Res) (s : RState)
    (tr : List String) (d : String)
    (hreg : (alookup d s.loaded_modules).isSome = true) (hg : g s d = .noFuel) :
    cascade_step g (.done s tr) d = .noFuel := by
  simp only [cascade_step, if_pos hreg, hg]

theorem c4_stepA (fuel : Nat) :
    reload_module c4Env (fuel+1) c4T "A" =
      reload_finish c4Env "A" none
        (cascade_step (fun t d => reload_module c4Env fuel t d) (.done c4T []) "B") :=
  rfl

theorem c4_stepB (fuel : Nat) :
    reload_module c4Env (fuel+1) c4T "B" =
      reload_finish c4Env "B" none
        (cascade_step (fun t d => reload_module c4Env fuel t d) (.done c4T []) "A") :=
  rfl

theorem c4_fix : ∀ fuel, reload_module c4Env fuel c4T "A" = .noFuel ∧
    reload_module c4Env fuel c4T "B" = .noFuel := by
  intro fuel
  induction fuel with
  | zero => exact ⟨rfl, rfl⟩
  | succ fuel ih =>
    constructor
    · rw [c4_stepA fuel, cascade_step_noFuel_of _ _ _ _ (by decide) ih.2]
      rfl
    · rw [c4_stepB fuel, cascade_step_noFuel_of _ _ _ _ (by decide) ih.1]
      rfl

theorem c4_step1 (fuel : Nat) :
    reload_module c4Env (fuel+1) c4T1 "B" =
      reload_finish c4Env "B" none
        (cascade_step (fun t d => reload_module c4Env fuel t d) (.done c4T []) "A") :=
  rfl

theorem c4_T1_noFuel : ∀ fuel, reload_module c4Env fuel c4T1 "B" = .noFuel := by
  intro fuel
  cases fuel with
  | zero => rfl
  | succ fuel =>
    rw [c4_step1 fuel, cascade_step_noFuel_of _ _ _ _ (by decide) (c4_fix fuel).1]
    rfl

theorem c4_step0 (fuel : Nat) :
    reload_module c4Env (fuel+1) c4S "A" =
      reload_finish c4Env "A" none
        (cascade_step (fun t d => reload_module c4Env fuel t d) (.done c4T1 []) "B") :=
  rfl

theorem c4_main : ∀ fuel, reload_module c4Env fuel c4S "A" = .noFuel := by
  intro fuel
  cases fuel with
  | zero => rfl
  | succ fuel =>
    rw [c4_step0 fuel, cascade_step_noFuel_of _ _ _ _ (by decide) (c4_T1_noFuel fuel)]
    rfl

/-- C4 counterexample: the *recorded* dependency graph of `c4S` is acyclic
(every recorded dependency list is empty), A is registered, yet
`reload_module A` exhausts every fuel bound — the recursion is unbounded —
because the cascade follows the *freshly recomputed* dependency lists,
which here form the two-cycle A → B → A.  Termination is therefore not
governed by the recorded graph, contradicting the claim as stated. -/
theorem c4_counterexample :
    c4S.module_dependencies = [("A", []), ("B", [])] ∧
    keysOf c4S.loaded_modules = ["A", "B"] ∧
    ¬ ReloadTerminates c4Env c4S "A" := by
  refine ⟨rfl, rfl, ?_⟩
  rintro ⟨fuel, hf⟩
  exact hf (c4_main fuel)

/-- C4 amended: termination of `reload_module` is governed by the *freshly
computed* dependency graph, not the recorded one: if a ranking function
strictly decreases along every freshly-computed dependency edge between
registered names (i.e. that graph, restricted to registered names, is
acyclic), then `reload_module` with fuel above the rank of the reloaded name
never exhausts its fuel — the source recursion terminates.  A reachable
cycle in the fresh graph yields unbounded recursion (the counterexample
exhibits this on a two-cycle with no visited set). -/
theorem c4_amended_termination (env : Env) (s : RState) (rank : String → Nat)
    (hrank : ∀ n ∈ keysOf s.loaded_modules, ∀ d ∈ envDeps env s.module_path n,
      d ∈ keysOf s.loaded_modules → rank d < rank n)
    (n : String) (fuel : Nat) (hfuel : rank n < fuel) :
    reload_module env fuel s n ≠ .noFuel ∧ ReloadTerminates env s n :=
  ⟨reload_nf env s rank hrank fuel s n (RegInv.refl s) hfuel,
    ⟨fuel, reload_nf env s rank hrank fuel s n (RegInv.refl s) hfuel⟩⟩

/-- Witness for `c4_amended_termination`: an acyclic fresh graph A → B. -/
theorem c4_amended_witness :
    reload_module c1WEnv 2 c1WS "A" ≠ .noFuel ∧ ReloadTerminates c1WEnv c1WS "A" :=
  c4_amended_termination c1WEnv c1WS (fun m => if m = "A" then 1 else 0)
    (by decide) "A" 2 (by decide)
